import Mathlib

/-!
Verification of the two scripts in `MyScripts/TaskVisualizationExperiments`:
`PrintContextSwitchSummaries.py` (the Formatter) and
`FindCasesOfParentResuming.py` (the Detector).

Both scripts are stdin loops of the shape `while True: try: line = input(); ...
except: break`.  We embed them shallowly: a line of text is a `List Char`, an
input stream is a finite `List` of lines, and each loop becomes a structurally
recursive function over the stream.  Python exceptions inside the loop body
(IndexError from a fixed-position token access, ValueError from `int(...)`)
are caught by the outer `except: break`, so a step function reports `ok :=
false` and the run function stops consuming input at that point.  End of input
(`input()` raising) is the `[]` case of the run function.

Printed output is modelled per print statement: the Detector's output is a
list of `DEvent`s, one constructor per `print` in the source; the Formatter's
output is the list of completed physical stdout lines (its `print(..., end="")`
calls concatenate into one physical line), plus the pending partial line left
unterminated when an exception interrupts a line under construction.
-/

/-- A line (or token) of text, as a list of characters. -/
abbrev Str := List Char

/-- Coerce a Lean string literal to our character-list representation. -/
def strL (s : String) : Str := s.data

/-- Whitespace, as recognised by Python's `str.split()` (restricted to the
ASCII whitespace characters that can occur in these logs). -/
def isWs (c : Char) : Bool := c = ' ' || c = '\t' || c = '\n' || c = '\r'

/-- Worker for `pySplit`: `acc` holds the (reversed) characters of the token
currently being scanned. -/
def pySplitAux : Str → Str → List Str
  | [], acc => if acc = [] then [] else [acc.reverse]
  | c :: cs, acc =>
    if isWs c then
      if acc = [] then pySplitAux cs [] else acc.reverse :: pySplitAux cs []
    else pySplitAux cs (c :: acc)

/-- Python's `line.split()`: split on runs of whitespace, dropping empty
tokens. -/
def pySplit (s : Str) : List Str := pySplitAux s []

/-- The Detector's `parent_task_dic`: a Python dict from task name to count.
Python dicts are insertion ordered; we model one as an association list where
assignment to an existing key updates in place and assignment to a fresh key
appends. -/
abbrev Dic := List (Str × Nat)

/-- Python dict lookup `d[k]`, as an `Option` (a missing key raises KeyError,
modelled by `none`). -/
def dicLookup (d : Dic) (k : Str) : Option Nat :=
  match d with
  | [] => none
  | (k', v') :: rest => if k' = k then some v' else dicLookup rest k

/-- Python dict assignment `d[k] = v`: update in place if present, else append. -/
def dicSet (d : Dic) (k : Str) (v : Nat) : Dic :=
  match d with
  | [] => [(k, v)]
  | (k', v') :: rest =>
    if k' = k then (k, v) :: rest else (k', v') :: dicSet rest k v

/-- Python `d[k] += 1`: `none` models the KeyError on a missing key. -/
def dicIncr (d : Dic) (k : Str) : Option Dic :=
  match d with
  | [] => none
  | (k', v') :: rest =>
    if k' = k then some ((k, v' + 1) :: rest)
    else (dicIncr rest k).map fun r => (k', v') :: r

/-- One Detector output event per `print` statement in
`FindCasesOfParentResuming.py`, in source order:
`echo` is `print(line)`; `echoTokens` is `print(line_array)`;
`parentMsg p` is `print("parent_task: " + parent_task)`;
`dicMsg d` is the `print("parent_task_dic: ", end=""); print(parent_task_dic)`
pair (one physical line showing the dict `d`);
`schedMsg t` is `print("scheduled_task: " + scheduled_task)`;
`unexpected t` is the fixed `UNEXPECTED: parent got scheduled after last
creation of a spawn and/or continuation task.` line, emitted while processing
a context switch to task `t`;
`normal t` is the fixed `NORMAL: scheduled task is not a previous parent task
of an await point` line, likewise;
`blank` is a bare `print()`;
`finalDic d` is the trailing `print(parent_task_dic)`. -/
inductive DEvent where
  | echo (line : Str)
  | echoTokens (toks : List Str)
  | parentMsg (p : Str)
  | dicMsg (d : Dic)
  | schedMsg (t : Str)
  | unexpected (t : Str)
  | normal (t : Str)
  | blank
  | finalDic (d : Dic)
deriving DecidableEq

/-- Result of one iteration of the Detector loop body: updated dict, events
printed during the iteration, and whether the body completed without an
exception (`ok = false` means the outer `except:` fires and the loop breaks). -/
structure DetOut where
  dic : Dic
  evs : List DEvent
  ok : Bool
deriving DecidableEq

/-- One iteration of the Detector's loop body on input line `line` with
current dict `dic`, transcribed from `FindCasesOfParentResuming.py` lines
4-23.  Fixed-position token accesses (`line_array[1]`, `line_array[8]`,
`line_array[2]`) raise IndexError when the line is too short; that exception
propagates to the outer handler, so the step reports `ok := false` with only
the events printed before the raise. -/
def detStep (dic : Dic) (line : Str) : DetOut :=
  let toks := pySplit line
  let evs : List DEvent := [.echo line, .echoTokens toks]
  match toks with
  | [] => ⟨dic, evs, true⟩
  | t0 :: rest =>
    if t0 = strL "SUMMARY:" then
      match rest with
      | [] => ⟨dic, evs, false⟩
      | t1 :: _ =>
        if t1 = strL "Continuation" || t1 = strL "Spawn" then
          match toks[8]? with
          | none => ⟨dic, evs, false⟩
          | some p =>
            let dic' := dicSet dic p 0
            ⟨dic', evs ++ [.parentMsg p, .dicMsg dic'], true⟩
        else ⟨dic, evs, true⟩
    else if t0 = strL "CONTEXT_SWITCH:" then
      match toks[2]? with
      | none => ⟨dic, evs, false⟩
      | some s =>
        match dicIncr dic s with
        | some dic' => ⟨dic', evs ++ [.schedMsg s, .unexpected s], true⟩
        | none => ⟨dic, evs ++ [.schedMsg s, .normal s], true⟩
    else ⟨dic, evs, true⟩

/-- The Detector's read loop over a finite input stream: processes lines until
the stream is exhausted (`input()` raises EOFError) or an iteration raises,
either of which triggers the outer `except: break`. -/
def detRun (dic : Dic) : List Str → Dic × List DEvent
  | [] => (dic, [])
  | l :: ls =>
    let r := detStep dic l
    if r.ok then
      let rest := detRun r.dic ls
      (rest.1, r.evs ++ rest.2)
    else (r.dic, r.evs)

/-- The whole Detector script: run the loop from the empty dict, then print
five blank lines and the final dict. -/
def detMain (input : List Str) : Dic × List DEvent :=
  let r := detRun [] input
  (r.1, r.2 ++ [.blank, .blank, .blank, .blank, .blank, .finalDic r.1])

/-- Digit character for a value `0`-`9`, as produced by Python's `str` of an
integer. -/
def digitChar : Nat → Char
  | 0 => '0'
  | 1 => '1'
  | 2 => '2'
  | 3 => '3'
  | 4 => '4'
  | 5 => '5'
  | 6 => '6'
  | 7 => '7'
  | 8 => '8'
  | _ => '9'

/-- Decimal digits of `n`, most significant first, with structural fuel
(`natDigsF f n` is the digits of `n` provided `f ≥ n`; `n` itself is always
enough fuel since `n / 10 < n` for positive `n`). -/
def natDigsF : Nat → Nat → Str
  | _, 0 => []
  | 0, _ + 1 => []
  | f + 1, n + 1 => natDigsF f ((n + 1) / 10) ++ [digitChar ((n + 1) % 10)]

/-- Python's `str` of a nonnegative integer. -/
def natRepr (n : Nat) : Str := if n = 0 then strL "0" else natDigsF n n

/-- Python's `str` of an integer. -/
def intRepr : Int → Str
  | .ofNat n => natRepr n
  | .negSucc n => '-' :: natRepr (n + 1)

/-- Value of a nonempty all-digit string. -/
def digitsVal (s : Str) : Option Nat :=
  if s ≠ [] ∧ s.all Char.isDigit then
    some (s.foldl (fun a c => a * 10 + (c.toNat - 48)) 0)
  else none

/-- Python's `int(s)` on an already-stripped token: optional sign followed by
decimal digits; anything else raises ValueError, modelled by `none`.  (Python
additionally strips surrounding whitespace and allows `_` digit separators;
the tokens fed to `int` here come from `str.split()` so contain no
whitespace.) -/
def pyInt : Str → Option Int
  | '-' :: rest => (digitsVal rest).map fun n => -(n : Int)
  | '+' :: rest => (digitsVal rest).map fun n => (n : Int)
  | s => (digitsVal s).map fun n => (n : Int)

/-- Python's `s[:-2]`. -/
def dropLast2 (s : Str) : Str := s.dropLast.dropLast

/-- Result of one iteration of the Formatter loop body: updated `count`, the
completed stdout lines the iteration printed, the pending partial line (text
printed with `end=""` and not yet terminated) left behind if an exception
interrupted the iteration, and whether the body completed without an
exception. -/
structure FmtOut where
  count : Nat
  outLines : List Str
  pending : Str
  ok : Bool
deriving DecidableEq

/-- One iteration of the Formatter's loop body on input line `line` with
current counter `count`, transcribed from `PrintContextSwitchSummaries.py`
lines 13-70.  Notable source behaviours preserved here:
the first recognised line prints the hardcoded `Scheduled: Task(0)` and a
blank line, then `continue`s;
the `     SUMMARY: ` and `CONTEXT_SWITCH: ` prefixes are printed with
`end=""` before the token accesses that may raise, so an IndexError or
ValueError in those branches leaves the prefix as an unterminated partial
line;
an unknown type tag prints `error1` (completing the pending `     SUMMARY: `
line) and then still prints the creation line with the default lowercase
`continuation` tag;
every recognised non-`continue` branch ends with a blank `print()`. -/
def fmtStep (count : Nat) (line : Str) : FmtOut :=
  let toks := pySplit line
  match toks with
  | [] => ⟨count, [], [], true⟩
  | t0 :: _ =>
    if t0 = strL "<TaskSummaryLog>" then
      let count' := count + 1
      if count' = 1 then ⟨count', [strL "Scheduled: Task(0)", []], [], true⟩
      else
        match toks[1]? with
        | none => ⟨count', [], [], false⟩
        | some t1 =>
          if t1 = strL "T-case" then
            let pen := strL "     SUMMARY: "
            match toks[2]? with
            | none => ⟨count', [], pen, false⟩
            | some t2 =>
              if t2 = strL "1.):" then
                ⟨count', [pen ++ strL "No new task added.", []], [], true⟩
              else
                match toks[11]? with
                | none => ⟨count', [], pen, false⟩
                | some parent_task =>
                  match toks[14]? with
                  | none => ⟨count', [], pen, false⟩
                  | some t14 =>
                    match pyInt (dropLast2 t14) with
                    | none => ⟨count', [], pen, false⟩
                    | some parent_task_id =>
                      match toks[5]? with
                      | none => ⟨count', [], pen, false⟩
                      | some new_task =>
                        match toks[8]? with
                        | none => ⟨count', [], pen, false⟩
                        | some t8 =>
                          match pyInt t8.dropLast with
                          | none => ⟨count', [], pen, false⟩
                          | some new_task_id =>
                            match toks[3]? with
                            | none => ⟨count', [], pen, false⟩
                            | some t3 =>
                              let task_type : Str :=
                                if t3 = strL "Spawn" then strL "Spawn"
                                else if t3 = strL "Continuation" then strL "Continuation"
                                else strL "continuation"
                              let body : Str :=
                                task_type ++ strL " " ++ new_task ++ strL " (ID = "
                                  ++ intRepr new_task_id ++ strL ")" ++ strL " created by "
                                  ++ parent_task ++ strL " (ID = " ++ intRepr parent_task_id
                                  ++ strL ")"
                              if t3 = strL "Spawn" ∨ t3 = strL "Continuation" then
                                ⟨count', [pen ++ body, []], [], true⟩
                              else
                                ⟨count', [pen ++ strL "error1", body, []], [], true⟩
          else if t1 = strL "Scheduled:" then
            let pen := strL "CONTEXT_SWITCH: "
            match toks[2]? with
            | none => ⟨count', [], pen, false⟩
            | some task_scheduled =>
              ⟨count', [pen ++ strL "Scheduled: " ++ task_scheduled, []], [], true⟩
          else ⟨count', [strL "error2", []], [], true⟩
    else ⟨count, [], [], true⟩

/-- The Formatter's read loop over a finite input stream: returns the
completed output lines and the trailing unterminated partial line (empty
unless an exception broke the loop mid-line). -/
def fmtRun (count : Nat) : List Str → List Str × Str
  | [] => ([], [])
  | l :: ls =>
    let r := fmtStep count l
    if r.ok then
      let rest := fmtRun r.count ls
      (r.outLines ++ rest.1, rest.2)
    else (r.outLines, r.pending)

/-- Small-step state of the Formatter loop: counter, remaining input,
output produced so far, pending partial line, and whether the loop has
exited. -/
structure FmtSt where
  count : Nat
  input : List Str
  out : List Str
  pending : Str
  halted : Bool
deriving DecidableEq

/-- One clock tick of the Formatter loop: a halted state is absorbing;
otherwise exhausted input halts (the `input()` call raises and the `except:`
breaks), and a line is consumed by one iteration of the body, halting if the
body raised. -/
def fmtTick (s : FmtSt) : FmtSt :=
  if s.halted then s
  else
    match s.input with
    | [] => { s with halted := true }
    | l :: ls =>
      let r := fmtStep s.count l
      ⟨r.count, ls, s.out ++ r.outLines, r.pending, !r.ok⟩

/-- Initial Formatter state on a given input stream (`count = 0`). -/
def fmtInit (input : List Str) : FmtSt := ⟨0, input, [], [], false⟩

/-- The line classifications the spec's Detector properties quantify over:
`isCreationFor P l` holds when the Detector's creation branch would reset `P`
(first token `SUMMARY:`, second token `Continuation` or `Spawn`, token 8 equal
to `P`). -/
def isCreationFor (P l : Str) : Bool :=
  let t := pySplit l
  t[0]? = some (strL "SUMMARY:") &&
    (t[1]? = some (strL "Continuation") || t[1]? = some (strL "Spawn")) &&
    t[8]? = some P

/-- Predicate `isSchedFor P l`: holds when the Detector's context-switch branch would
look up `P` (first token `CONTEXT_SWITCH:`, token 2 equal to `P`). -/
def isSchedFor (P l : Str) : Bool :=
  let t := pySplit l
  t[0]? = some (strL "CONTEXT_SWITCH:") && t[2]? = some P

/-- Whether one iteration of the Detector body on `l` raises (IndexError on a
fixed-position token access), which makes the outer `except:` break the loop.
This depends only on the line, not on the dict. -/
def detBreaks (l : Str) : Bool :=
  let t := pySplit l
  match t with
  | [] => false
  | t0 :: rest =>
    if t0 = strL "SUMMARY:" then
      match rest with
      | [] => true
      | t1 :: _ =>
        if t1 = strL "Continuation" || t1 = strL "Spawn" then t[8]?.isNone
        else false
    else if t0 = strL "CONTEXT_SWITCH:" then t[2]?.isNone
    else false

/-- The prefix of the input whose iterations complete without raising; the
first raising line (if any) stops the loop and contributes no dict update and
no classification output. -/
def detProcessed : List Str → List Str
  | [] => []
  | l :: ls => if detBreaks l then [] else l :: detProcessed ls

/-- Specification-side account of what one processed line does to `P`'s
registry entry (`none` = absent): a creation line for `P` resets it to `0`, a
context switch to `P` increments it when present (and leaves it absent when
absent), anything else leaves it unchanged. -/
def specStep (a : Option Nat) (P l : Str) : Option Nat :=
  if isCreationFor P l then some 0
  else if isSchedFor P l then a.map (· + 1)
  else a

/-- The fold of `specStep` over a list of lines. -/
def countSpecFrom (a : Option Nat) (P : Str) (ls : List Str) : Option Nat :=
  ls.foldl (fun acc l => specStep acc P l) a

/-- The suffix of `ls` strictly after the last line that resets `P`, or `none`
if no line resets `P`.  This is the spec's "since it last appeared as a parent
in a creation event" window. -/
def sinceLastReset (P : Str) : List Str → Option (List Str)
  | [] => none
  | l :: ls =>
    match sinceLastReset P ls with
    | some suf => some suf
    | none => if isCreationFor P l then some ls else none

/-- A whitespace-free string, as every token produced by `pySplit` is. -/
def noWs (s : Str) : Bool := s.all fun c => !isWs c

theorem dicLookup_dicSet (d : Dic) (k k' : Str) (v : Nat) :
    dicLookup (dicSet d k v) k' = if k = k' then some v else dicLookup d k' := by
  induction d with
  | nil => by_cases h : k = k' <;> simp [dicSet, dicLookup, h]
  | cons p rest ih =>
    obtain ⟨a, b⟩ := p
    by_cases hak : a = k
    · subst hak
      by_cases h : a = k' <;> simp [dicSet, dicLookup, h]
    · by_cases h : a = k'
      · subst h
        have hk : ¬ k = a := fun hh => hak hh.symm
        simp [dicSet, dicLookup, hak, hk]
      · simp [dicSet, dicLookup, hak, h, ih]

theorem dicIncr_isSome (d : Dic) (k : Str) :
    (dicIncr d k).isSome = (dicLookup d k).isSome := by
  induction d with
  | nil => simp [dicIncr, dicLookup]
  | cons p rest ih =>
    obtain ⟨a, b⟩ := p
    by_cases h : a = k <;> simp [dicIncr, dicLookup, h, Option.isSome_map, ih]

theorem dicIncr_eq_none (d : Dic) (k : Str) :
    dicIncr d k = none ↔ dicLookup d k = none := by
  rw [← Option.not_isSome_iff_eq_none, ← Option.not_isSome_iff_eq_none, dicIncr_isSome]

theorem dicLookup_dicIncr (d d' : Dic) (k k' : Str) (h : dicIncr d k = some d') :
    dicLookup d' k' =
      if k = k' then (dicLookup d k').map (· + 1) else dicLookup d k' := by
  induction d generalizing d' with
  | nil => simp [dicIncr] at h
  | cons p rest ih =>
    obtain ⟨a, b⟩ := p
    by_cases hak : a = k
    · subst hak
      have h' : ((a, b + 1) :: rest : Dic) = d' := by simpa [dicIncr] using h
      subst h'
      by_cases h' : a = k' <;> simp [dicLookup, h']
    · simp only [dicIncr, if_neg hak, Option.map_eq_some'] at h
      obtain ⟨r, hr, hd'⟩ := h
      subst hd'
      by_cases h' : a = k'
      · subst h'
        have hk : ¬ k = a := fun hh => hak hh.symm
        simp [dicLookup, hk]
      · simp [dicLookup, h', ih r hr]

theorem dicLookup_dicSet_self (d : Dic) (k : Str) (v : Nat) :
    dicLookup (dicSet d k v) k = some v := by
  simp [dicLookup_dicSet]

theorem dicLookup_dicSet_other (d : Dic) (k k' : Str) (v : Nat) (h : k ≠ k') :
    dicLookup (dicSet d k v) k' = dicLookup d k' := by
  simp [dicLookup_dicSet, h]

theorem dicLookup_dicIncr_self (d d' : Dic) (k : Str) (h : dicIncr d k = some d') :
    dicLookup d' k = (dicLookup d k).map (· + 1) := by
  simpa using dicLookup_dicIncr d d' k k h

theorem dicLookup_dicIncr_other (d d' : Dic) (k k' : Str) (h : dicIncr d k = some d')
    (hne : k ≠ k') : dicLookup d' k' = dicLookup d k' := by
  simpa [hne] using dicLookup_dicIncr d d' k k' h

theorem sum_ne_cs : strL "SUMMARY:" ≠ strL "CONTEXT_SWITCH:" := by decide

theorem cs_ne_sum : strL "CONTEXT_SWITCH:" ≠ strL "SUMMARY:" := by decide

/-- Whether an iteration raises depends only on the line, never on the dict. -/
theorem detStep_ok (dic : Dic) (l : Str) : (detStep dic l).ok = !detBreaks l := by
  cases hsp : pySplit l with
  | nil => simp [detStep, detBreaks, hsp]
  | cons t0 rest =>
    by_cases h0 : t0 = strL "SUMMARY:"
    · subst h0
      cases rest with
      | nil => simp [detStep, detBreaks, hsp]
      | cons t1 rest2 =>
        by_cases h1 : (t1 = strL "Continuation" || t1 = strL "Spawn") = true
        · cases h8 : rest2[6]? with
          | none => simp [detStep, detBreaks, hsp, h1, h8]
          | some p => simp [detStep, detBreaks, hsp, h1, h8]
        · simp [detStep, detBreaks, hsp, h1]
    · by_cases hc : t0 = strL "CONTEXT_SWITCH:"
      · subst hc
        cases h2 : rest[1]? with
        | none => simp [detStep, detBreaks, hsp, cs_ne_sum, h2]
        | some s =>
          cases hi : dicIncr dic s <;>
            simp [detStep, detBreaks, hsp, cs_ne_sum, h2, hi]
      · simp [detStep, detBreaks, hsp, h0, hc]

/-- One iteration's effect on `P`'s registry entry is exactly `specStep`,
whatever the line (a raising iteration mutates nothing, and neither
classifier holds for a raising line). -/
theorem detStep_lookup (dic : Dic) (P l : Str) :
    dicLookup (detStep dic l).dic P = specStep (dicLookup dic P) P l := by
  cases hsp : pySplit l with
  | nil => simp [detStep, specStep, isCreationFor, isSchedFor, hsp]
  | cons t0 rest =>
    by_cases h0 : t0 = strL "SUMMARY:"
    · subst h0
      cases rest with
      | nil => simp [detStep, specStep, isCreationFor, isSchedFor, hsp, sum_ne_cs]
      | cons t1 rest2 =>
        by_cases h1 : (t1 = strL "Continuation" || t1 = strL "Spawn") = true
        · have h1' : t1 = strL "Continuation" ∨ t1 = strL "Spawn" := by simpa using h1
          cases h8 : rest2[6]? with
          | none =>
            rcases h1' with h | h <;> subst h <;>
              simp [detStep, specStep, isCreationFor, isSchedFor, hsp, sum_ne_cs, h8]
          | some p =>
            by_cases hpP : p = P
            · subst hpP
              rcases h1' with h | h <;> subst h <;>
                simp [detStep, specStep, isCreationFor, isSchedFor, hsp, sum_ne_cs, h8,
                  dicLookup_dicSet_self]
            · rcases h1' with h | h <;> subst h <;>
                simp [detStep, specStep, isCreationFor, isSchedFor, hsp, sum_ne_cs, h8, hpP,
                  dicLookup_dicSet_other _ _ _ _ hpP]
        · obtain ⟨hA, hB⟩ := not_or.mp (by simpa using h1)
          simp [detStep, specStep, isCreationFor, isSchedFor, hsp, sum_ne_cs, h1, hA, hB]
    · by_cases hc : t0 = strL "CONTEXT_SWITCH:"
      · subst hc
        cases h2 : rest[1]? with
        | none => simp [detStep, specStep, isCreationFor, isSchedFor, hsp, cs_ne_sum, h2]
        | some s =>
          cases hi : dicIncr dic s with
          | none =>
            have hnone : dicLookup dic s = none := (dicIncr_eq_none dic s).mp hi
            by_cases hsP : s = P
            · subst hsP
              simp [detStep, specStep, isCreationFor, isSchedFor, hsp, cs_ne_sum, h2, hi, hnone]
            · simp [detStep, specStep, isCreationFor, isSchedFor, hsp, cs_ne_sum, h2, hi, hsP, Ne.symm hsP]
          | some dic' =>
            by_cases hsP : s = P
            · subst hsP
              have hl := dicLookup_dicIncr_self dic dic' s hi
              simp [detStep, specStep, isCreationFor, isSchedFor, hsp, cs_ne_sum, h2, hi, hl]
            · have hl := dicLookup_dicIncr_other dic dic' s P hi hsP
              simp [detStep, specStep, isCreationFor, isSchedFor, hsp, cs_ne_sum, h2, hi, hl, hsP]
      · simp [detStep, specStep, isCreationFor, isSchedFor, hsp, h0, hc]

/-- A raising line is neither a creation for `P` nor a context switch to `P`,
so it leaves the specification-side account unchanged. -/
theorem specStep_of_detBreaks (a : Option Nat) (P l : Str) (h : detBreaks l = true) :
    specStep a P l = a := by
  cases hsp : pySplit l with
  | nil => simp [detBreaks, hsp] at h
  | cons t0 rest =>
    by_cases h0 : t0 = strL "SUMMARY:"
    · subst h0
      cases rest with
      | nil => simp [specStep, isCreationFor, isSchedFor, hsp, sum_ne_cs]
      | cons t1 rest2 =>
        by_cases h1 : (t1 = strL "Continuation" || t1 = strL "Spawn") = true
        · cases h8 : rest2[6]? with
          | none => simp [specStep, isCreationFor, isSchedFor, hsp, sum_ne_cs, h8]
          | some p => simp [detBreaks, hsp, h1, h8] at h
        · simp [detBreaks, hsp, h1] at h
    · by_cases hc : t0 = strL "CONTEXT_SWITCH:"
      · subst hc
        cases h2 : rest[1]? with
        | none => simp [specStep, isCreationFor, isSchedFor, hsp, cs_ne_sum, h2]
        | some s => simp [detBreaks, hsp, cs_ne_sum, h2] at h
      · simp [detBreaks, hsp, h0, hc] at h

/-- A context-switch line for `P` is never a creation line for `P`. -/
theorem sched_not_creation {P l : Str} (h : isSchedFor P l = true) :
    isCreationFor P l = false := by
  cases hsp : pySplit l with
  | nil => simp [isSchedFor, hsp] at h
  | cons t0 rest =>
    simp only [isSchedFor, hsp] at h
    simp only [Bool.and_eq_true, decide_eq_true_eq, List.getElem?_cons_zero,
      Option.some.injEq] at h
    obtain ⟨h0, -⟩ := h
    subst h0
    simp [isCreationFor, hsp, cs_ne_sum]

/-- A context-switch line for `P` never raises (its token 2 exists). -/
theorem sched_not_breaks {P l : Str} (h : isSchedFor P l = true) :
    detBreaks l = false := by
  cases hsp : pySplit l with
  | nil => simp [isSchedFor, hsp] at h
  | cons t0 rest =>
    simp only [isSchedFor, hsp] at h
    simp only [Bool.and_eq_true, decide_eq_true_eq, List.getElem?_cons_zero,
      Option.some.injEq] at h
    obtain ⟨h0, h2⟩ := h
    subst h0
    simp [detBreaks, hsp, cs_ne_sum, h2]

/-- A creation line for `P` never raises (its token 8 exists). -/
theorem creation_not_breaks {P l : Str} (h : isCreationFor P l = true) :
    detBreaks l = false := by
  cases hsp : pySplit l with
  | nil => simp [isCreationFor, hsp] at h
  | cons t0 rest =>
    simp only [isCreationFor, hsp] at h
    simp only [Bool.and_eq_true, Bool.or_eq_true, decide_eq_true_eq,
      List.getElem?_cons_zero, Option.some.injEq] at h
    obtain ⟨⟨h0, h1⟩, h8⟩ := h
    subst h0
    cases rest with
    | nil => simp at h1
    | cons t1 rest2 =>
      simp only [List.getElem?_cons_succ, List.getElem?_cons_zero, Option.some.injEq] at h1 h8
      have ht1 : (t1 = strL "Continuation" || t1 = strL "Spawn") = true := by
        rcases h1 with h | h <;> simp [h]
      simp [detBreaks, hsp, ht1, h8]

/-- The `UNEXPECTED` diagnostic is printed during an iteration exactly when
the line is a context switch to `P` and `P` is currently in the registry. -/
theorem unexpected_mem_detStep (dic : Dic) (P l : Str) :
    DEvent.unexpected P ∈ (detStep dic l).evs ↔
      isSchedFor P l = true ∧ (dicLookup dic P).isSome = true := by
  cases hsp : pySplit l with
  | nil => simp [detStep, isSchedFor, hsp]
  | cons t0 rest =>
    by_cases h0 : t0 = strL "SUMMARY:"
    · subst h0
      cases rest with
      | nil => simp [detStep, isSchedFor, hsp, sum_ne_cs]
      | cons t1 rest2 =>
        by_cases h1 : (t1 = strL "Continuation" || t1 = strL "Spawn") = true
        · cases h8 : rest2[6]? with
          | none => simp [detStep, isSchedFor, hsp, sum_ne_cs, h1, h8]
          | some p => simp [detStep, isSchedFor, hsp, sum_ne_cs, h1, h8]
        · simp [detStep, isSchedFor, hsp, sum_ne_cs, h1]
    · by_cases hc : t0 = strL "CONTEXT_SWITCH:"
      · subst hc
        cases h2 : rest[1]? with
        | none => simp [detStep, isSchedFor, hsp, cs_ne_sum, h2]
        | some s =>
          cases hi : dicIncr dic s with
          | none =>
            have hnone : dicLookup dic s = none := (dicIncr_eq_none dic s).mp hi
            by_cases hsP : s = P
            · subst hsP
              simp [detStep, isSchedFor, hsp, cs_ne_sum, h2, hi, hnone]
            · simp [detStep, isSchedFor, hsp, cs_ne_sum, h2, hi, hsP, Ne.symm hsP]
          | some dic' =>
            by_cases hsP : s = P
            · subst hsP
              have hsome : (dicLookup dic s).isSome = true := by
                rw [← dicIncr_isSome]; simp [hi]
              simp [detStep, isSchedFor, hsp, cs_ne_sum, h2, hi, hsome]
            · simp [detStep, isSchedFor, hsp, cs_ne_sum, h2, hi, hsP, Ne.symm hsP]
      · simp [detStep, isSchedFor, hsp, h0, hc]

/-- The `NORMAL` diagnostic is printed during an iteration exactly when the
line is a context switch to `P` and `P` is absent from the registry. -/
theorem normal_mem_detStep (dic : Dic) (P l : Str) :
    DEvent.normal P ∈ (detStep dic l).evs ↔
      isSchedFor P l = true ∧ dicLookup dic P = none := by
  cases hsp : pySplit l with
  | nil => simp [detStep, isSchedFor, hsp]
  | cons t0 rest =>
    by_cases h0 : t0 = strL "SUMMARY:"
    · subst h0
      cases rest with
      | nil => simp [detStep, isSchedFor, hsp, sum_ne_cs]
      | cons t1 rest2 =>
        by_cases h1 : (t1 = strL "Continuation" || t1 = strL "Spawn") = true
        · cases h8 : rest2[6]? with
          | none => simp [detStep, isSchedFor, hsp, sum_ne_cs, h1, h8]
          | some p => simp [detStep, isSchedFor, hsp, sum_ne_cs, h1, h8]
        · simp [detStep, isSchedFor, hsp, sum_ne_cs, h1]
    · by_cases hc : t0 = strL "CONTEXT_SWITCH:"
      · subst hc
        cases h2 : rest[1]? with
        | none => simp [detStep, isSchedFor, hsp, cs_ne_sum, h2]
        | some s =>
          cases hi : dicIncr dic s with
          | none =>
            have hnone : dicLookup dic s = none := (dicIncr_eq_none dic s).mp hi
            by_cases hsP : s = P
            · subst hsP
              simp [detStep, isSchedFor, hsp, cs_ne_sum, h2, hi, hnone]
            · simp [detStep, isSchedFor, hsp, cs_ne_sum, h2, hi, hsP, Ne.symm hsP]
          | some dic' =>
            by_cases hsP : s = P
            · subst hsP
              have hsome : (dicLookup dic s).isSome = true := by
                rw [← dicIncr_isSome]; simp [hi]
              have : ¬ dicLookup dic s = none := by
                intro hh; rw [hh] at hsome; simp at hsome
              simp [detStep, isSchedFor, hsp, cs_ne_sum, h2, hi, this]
            · simp [detStep, isSchedFor, hsp, cs_ne_sum, h2, hi, hsP, Ne.symm hsP]
      · simp [detStep, isSchedFor, hsp, h0, hc]

theorem countSpecFrom_cons (a : Option Nat) (P l : Str) (t : List Str) :
    countSpecFrom a P (l :: t) = countSpecFrom (specStep a P l) P t := rfl

/-- The registry entry for `P` after the whole run is `specStep` folded over
the effectively processed prefix of the input. -/
theorem detRun_lookup (input : List Str) (dic : Dic) (P : Str) :
    dicLookup (detRun dic input).1 P =
      countSpecFrom (dicLookup dic P) P (detProcessed input) := by
  induction input generalizing dic with
  | nil => simp [detRun, detProcessed, countSpecFrom]
  | cons l ls ih =>
    by_cases hb : detBreaks l
    · have hok : (detStep dic l).ok = false := by simp [detStep_ok, hb]
      simp only [detRun, hok, Bool.false_eq_true, if_false]
      rw [detStep_lookup]
      simp [detProcessed, hb, countSpecFrom, specStep_of_detBreaks _ _ _ hb]
    · have hok : (detStep dic l).ok = true := by simp [detStep_ok, hb]
      simp only [detRun, hok, if_true]
      rw [ih, detStep_lookup]
      simp [detProcessed, hb, countSpecFrom_cons]

/-- Folding from a present entry: if some later line resets `P` the start
value is forgotten, otherwise every context switch to `P` adds one. -/
theorem countSpecFrom_some (P : Str) (ls : List Str) (a : Nat) :
    countSpecFrom (some a) P ls =
      match sinceLastReset P ls with
      | some suf => some (suf.countP fun m => isSchedFor P m)
      | none => some (a + ls.countP fun m => isSchedFor P m) := by
  induction ls generalizing a with
  | nil => simp [countSpecFrom, sinceLastReset]
  | cons l t ih =>
    by_cases hc : isCreationFor P l = true
    · have hstep : specStep (some a) P l = some 0 := by simp [specStep, hc]
      rw [countSpecFrom_cons, hstep, ih 0]
      cases hs : sinceLastReset P t with
      | some suf => simp [sinceLastReset, hs]
      | none => simp [sinceLastReset, hs, hc]
    · by_cases hsch : isSchedFor P l = true
      · have hstep : specStep (some a) P l = some (a + 1) := by
          simp [specStep, hc, hsch]
        rw [countSpecFrom_cons, hstep, ih (a + 1)]
        cases hs : sinceLastReset P t with
        | some suf => simp [sinceLastReset, hs]
        | none =>
          simp only [sinceLastReset, hs, hc, Bool.false_eq_true, if_false,
            List.countP_cons, hsch, if_true, Option.some.injEq]
          omega
      · have hstep : specStep (some a) P l = some a := by simp [specStep, hc, hsch]
        rw [countSpecFrom_cons, hstep, ih a]
        cases hs : sinceLastReset P t with
        | some suf => simp [sinceLastReset, hs]
        | none => simp [sinceLastReset, hs, hc, List.countP_cons, hsch]

/-- The registry entry computed by the fold equals the spec's reading: absent
unless some line resets `P`, else the number of context switches to `P`
strictly after the last reset of `P`. -/
theorem countSpecFrom_none (P : Str) (ls : List Str) :
    countSpecFrom none P ls =
      (sinceLastReset P ls).map fun suf => suf.countP fun m => isSchedFor P m := by
  induction ls with
  | nil => simp [countSpecFrom, sinceLastReset]
  | cons l t ih =>
    by_cases hc : isCreationFor P l = true
    · have hstep : specStep none P l = some 0 := by simp [specStep, hc]
      rw [countSpecFrom_cons, hstep, countSpecFrom_some]
      cases hs : sinceLastReset P t with
      | some suf => simp [sinceLastReset, hs]
      | none => simp [sinceLastReset, hs, hc]
    · have hstep : specStep none P l = none := by simp [specStep, hc]
      rw [countSpecFrom_cons, hstep, ih]
      cases hs : sinceLastReset P t with
      | some suf => simp [sinceLastReset, hs]
      | none => simp [sinceLastReset, hs, hc]

/-- A present entry can only arise after some processed line reset `P`. -/
theorem exists_creation_of_isSome (P : Str) (ls : List Str)
    (h : (countSpecFrom none P ls).isSome = true) :
    ∃ pre c post, ls = pre ++ c :: post ∧ isCreationFor P c = true := by
  induction ls with
  | nil => simp [countSpecFrom] at h
  | cons l t ih =>
    by_cases hc : isCreationFor P l = true
    · exact ⟨[], l, t, rfl, hc⟩
    · have hstep : specStep none P l = none := by simp [specStep, hc]
      rw [countSpecFrom_cons, hstep] at h
      obtain ⟨pre, c, post, het, hcc⟩ := ih h
      exact ⟨l :: pre, c, post, by simp [het], hcc⟩

theorem sinceLastReset_eq_none (P : Str) :
    ∀ ls, sinceLastReset P ls = none → ∀ c ∈ ls, isCreationFor P c = false := by
  intro ls
  induction ls with
  | nil => intro _ c hc; simp at hc
  | cons l t ih =>
    intro h c hmem
    cases hs : sinceLastReset P t with
    | some suf => simp [sinceLastReset, hs] at h
    | none =>
      have hcl : isCreationFor P l = false := by
        by_cases hcl : isCreationFor P l = true
        · simp [sinceLastReset, hs, hcl] at h
        · simpa using hcl
      rcases List.mem_cons.mp hmem with rfl | hm
      · exact hcl
      · exact ih hs c hm

theorem sinceLastReset_decomp (P : Str) :
    ∀ ls suf, sinceLastReset P ls = some suf →
      ∃ pre c, ls = pre ++ c :: suf ∧ isCreationFor P c = true := by
  intro ls
  induction ls with
  | nil => intro suf h; simp [sinceLastReset] at h
  | cons l t ih =>
    intro suf h
    cases hs : sinceLastReset P t with
    | some suf' =>
      have heq : suf' = suf := by simpa [sinceLastReset, hs] using h
      subst heq
      obtain ⟨pre, c, het, hc⟩ := ih _ hs
      exact ⟨l :: pre, c, by simp [het], hc⟩
    | none =>
      by_cases hcl : isCreationFor P l = true
      · have heq : t = suf := by simpa [sinceLastReset, hs, hcl] using h
        subst heq
        exact ⟨[], l, rfl, hcl⟩
      · simp [sinceLastReset, hs, hcl] at h

/-- If the run prints `UNEXPECTED` while handling a context switch to `P`,
then some processed line switches to `P` at a point where `P`'s entry is
present. -/
theorem detRun_unexpected_mem (P : Str) :
    ∀ (input : List Str) (dic : Dic),
      DEvent.unexpected P ∈ (detRun dic input).2 →
      ∃ pre l post, detProcessed input = pre ++ l :: post ∧ isSchedFor P l = true ∧
        (countSpecFrom (dicLookup dic P) P pre).isSome = true := by
  intro input
  induction input with
  | nil => intro dic h; simp [detRun] at h
  | cons l ls ih =>
    intro dic h
    by_cases hb : detBreaks l
    · have hok : (detStep dic l).ok = false := by simp [detStep_ok, hb]
      simp only [detRun, hok, Bool.false_eq_true, if_false] at h
      have hm := (unexpected_mem_detStep dic P l).mp h
      exact absurd (sched_not_breaks hm.1) (by simp [hb])
    · have hok : (detStep dic l).ok = true := by simp [detStep_ok, hb]
      simp only [detRun, hok, if_true] at h
      rw [List.mem_append] at h
      rcases h with h | h
      · have hm := (unexpected_mem_detStep dic P l).mp h
        exact ⟨[], l, detProcessed ls, by simp [detProcessed, hb], hm.1,
          by simpa [countSpecFrom] using hm.2⟩
      · obtain ⟨pre, l', post, hproc, hsch, hsome⟩ := ih _ h
        refine ⟨l :: pre, l', post, by simp [detProcessed, hb, hproc], hsch, ?_⟩
        rw [countSpecFrom_cons, ← detStep_lookup]
        exact hsome

theorem noWs_iff (s : Str) : noWs s = true ↔ ∀ c ∈ s, isWs c = false := by
  simp [noWs, List.all_eq_true]

/-- Consuming a whitespace-free chunk just accumulates its characters. -/
theorem pySplitAux_append_noWs (t : Str) (ht : noWs t = true) (r : Str) :
    ∀ acc, pySplitAux (t ++ r) acc = pySplitAux r (t.reverse ++ acc) := by
  induction t with
  | nil => intro acc; simp
  | cons c cs ih =>
    intro acc
    rw [noWs_iff] at ht
    have hc : isWs c = false := ht c (by simp)
    have hcs : noWs cs = true := (noWs_iff cs).mpr fun x hx => ht x (by simp [hx])
    simp only [List.cons_append, pySplitAux, hc, Bool.false_eq_true, if_false,
      List.append_eq]
    rw [ih hcs]
    simp

/-- A whitespace character flushes a nonempty accumulator as one token. -/
theorem pySplitAux_flush (c : Char) (r acc : Str) (hc : isWs c = true) (ha : acc ≠ []) :
    pySplitAux (c :: r) acc = acc.reverse :: pySplitAux r [] := by
  simp [pySplitAux, hc, ha]

/-- A whitespace-free nonempty token followed by a whitespace character is
emitted as one token, and scanning resumes after the separator. -/
theorem pySplit_tok_then (t : Str) (ht : noWs t = true) (hne : t ≠ []) (c : Char)
    (hc : isWs c = true) (r : Str) :
    pySplitAux (t ++ c :: r) [] = t :: pySplitAux r [] := by
  rw [pySplitAux_append_noWs t ht _ [], List.append_nil,
    pySplitAux_flush c r t.reverse hc (by simpa using hne)]
  simp

/-- A trailing whitespace-free nonempty token is emitted at end of input. -/
theorem pySplit_tok_end (t : Str) (ht : noWs t = true) (hne : t ≠ []) :
    pySplitAux t [] = [t] := by
  conv_lhs => rw [← List.append_nil t]
  rw [pySplitAux_append_noWs t ht _ [], List.append_nil]
  simp [pySplitAux, hne]

/-- Every token produced by `pySplit` is whitespace-free and nonempty. -/
theorem mem_pySplit (s : Str) :
    ∀ acc t, (∀ c ∈ acc, isWs c = false) → t ∈ pySplitAux s acc →
      noWs t = true ∧ t ≠ [] := by
  induction s with
  | nil =>
    intro acc t hacc ht
    by_cases h : acc = []
    · simp [pySplitAux, h] at ht
    · simp only [pySplitAux, h, if_false, List.mem_singleton] at ht
      subst ht
      exact ⟨(noWs_iff _).mpr fun c hc => hacc c (by simpa using hc),
        by simpa using h⟩
  | cons c cs ih =>
    intro acc t hacc ht
    by_cases hc : isWs c = true
    · by_cases h : acc = []
      · rw [show pySplitAux (c :: cs) acc = pySplitAux cs [] by simp [pySplitAux, hc, h]] at ht
        exact ih [] t (by simp) ht
      · rw [pySplitAux_flush c cs acc hc h] at ht
        rcases List.mem_cons.mp ht with rfl | hm
        · exact ⟨(noWs_iff _).mpr fun x hx => hacc x (by simpa using hx),
            by simpa using h⟩
        · exact ih [] t (by simp) hm
    · rw [show pySplitAux (c :: cs) acc = pySplitAux cs (c :: acc) by
        simp [pySplitAux, hc]] at ht
      refine ih (c :: acc) t ?_ ht
      intro x hx
      rcases List.mem_cons.mp hx with rfl | hx
      · simpa using hc
      · exact hacc x hx

theorem noWs_of_mem_pySplit {s t : Str} (h : t ∈ pySplit s) :
    noWs t = true ∧ t ≠ [] :=
  mem_pySplit s [] t (by simp) h

theorem isWs_digitChar (d : Nat) : isWs (digitChar d) = false := by
  rcases d with _|_|_|_|_|_|_|_|_|d <;> rfl

theorem mem_natDigsF (f : Nat) :
    ∀ n c, c ∈ natDigsF f n → isWs c = false := by
  induction f with
  | zero => intro n c hc; cases n <;> simp [natDigsF] at hc
  | succ f ih =>
    intro n c hc
    cases n with
    | zero => simp [natDigsF] at hc
    | succ m =>
      simp only [natDigsF, List.mem_append, List.mem_singleton] at hc
      rcases hc with hc | hc
      · exact ih _ c hc
      · subst hc; exact isWs_digitChar _

theorem natRepr_noWs (n : Nat) : noWs (natRepr n) = true := by
  rw [noWs_iff]
  intro c hc
  by_cases h : n = 0
  · subst h
    simp only [natRepr, if_pos rfl] at hc
    rcases show c = '0' by simpa [strL] using hc with rfl
    rfl
  · rw [natRepr, if_neg h] at hc
    exact mem_natDigsF n n c hc

theorem natRepr_ne_nil (n : Nat) : natRepr n ≠ [] := by
  by_cases h : n = 0
  · subst h; decide
  · rw [natRepr, if_neg h]
    cases n with
    | zero => cases h rfl
    | succ m => simp [natDigsF]

theorem intRepr_noWs (i : Int) : noWs (intRepr i) = true := by
  cases i with
  | ofNat n => exact natRepr_noWs n
  | negSucc n =>
    rw [noWs_iff]
    intro c hc
    simp only [intRepr, List.mem_cons] at hc
    rcases hc with rfl | hc
    · rfl
    · exact (noWs_iff _).mp (natRepr_noWs (n + 1)) c hc

theorem intRepr_ne_nil (i : Int) : intRepr i ≠ [] := by
  cases i with
  | ofNat n => exact natRepr_ne_nil n
  | negSucc n => simp [intRepr]

theorem noWs_append {a b : Str} (ha : noWs a = true) (hb : noWs b = true) :
    noWs (a ++ b) = true := by
  rw [noWs_iff] at ha hb ⊢
  intro c hc
  rcases List.mem_append.mp hc with h | h
  · exact ha c h
  · exact hb c h

theorem fmtRun_cons (count : Nat) (l : Str) (ls : List Str) :
    fmtRun count (l :: ls) =
      if (fmtStep count l).ok then
        ((fmtStep count l).outLines ++ (fmtRun (fmtStep count l).count ls).1,
          (fmtRun (fmtStep count l).count ls).2)
      else ((fmtStep count l).outLines, (fmtStep count l).pending) := rfl

theorem fmtTick_halted {s : FmtSt} (h : s.halted = true) : fmtTick s = s := by
  simp [fmtTick, h]

theorem fmtTick_iterate_halted {s : FmtSt} (h : s.halted = true) (n : Nat) :
    fmtTick^[n] s = s := by
  induction n with
  | zero => rfl
  | succ n ih => rw [Function.iterate_succ_apply, fmtTick_halted h, ih]

/-- The Formatter loop halts within `n + 1` ticks from any state with at most
`n` input lines remaining. -/
theorem fmtTick_iterate_halts (n : Nat) :
    ∀ s : FmtSt, s.input.length ≤ n → (fmtTick^[n + 1] s).halted = true := by
  induction n with
  | zero =>
    intro s hlen
    have hin : s.input = [] := List.length_eq_zero.mp (Nat.le_zero.mp hlen)
    by_cases h : s.halted = true
    · rw [fmtTick_iterate_halted h]; exact h
    · have hstep : (fmtTick s).halted = true := by simp [fmtTick, h, hin]
      calc (fmtTick^[1] s).halted = (fmtTick s).halted := by
            rw [Function.iterate_one]
        _ = true := hstep
  | succ n ih =>
    intro s hlen
    by_cases h : s.halted = true
    · rw [fmtTick_iterate_halted h]; exact h
    · rw [Function.iterate_succ_apply]
      cases hin : s.input with
      | nil =>
        have hstep : (fmtTick s).halted = true := by simp [fmtTick, h, hin]
        rw [fmtTick_iterate_halted hstep]; exact hstep
      | cons l ls =>
        apply ih
        have hinput : (fmtTick s).input = ls := by simp [fmtTick, h, hin]
        rw [hinput]
        have hl := hlen
        rw [hin] at hl
        simpa using hl

/-- Claim C1: Detector registry invariant: for every task name `P`, the final
registry entry of `P` is exactly the spec's count — absent unless some
processed line reset `P` (recorded `P` as the parent, token 8, of a
`SUMMARY:` Spawn/Continuation line), else the number of `CONTEXT_SWITCH:`
lines scheduling `P` (token 2) processed since the most recent such reset;
and whenever `P` is scheduled while in the registry (i.e. after being reset
and before being reset again), that iteration prints the `UNEXPECTED`
message and increments `P`'s count by exactly 1. -/
theorem detector_registry_invariant (input : List Str) (P : Str) :
    dicLookup (detRun [] input).1 P =
      (sinceLastReset P (detProcessed input)).map
        (fun suf => suf.countP fun m => isSchedFor P m) ∧
    ∀ dic l, (dicLookup dic P).isSome = true → isSchedFor P l = true →
      dicLookup (detStep dic l).dic P = (dicLookup dic P).map (· + 1) ∧
        DEvent.unexpected P ∈ (detStep dic l).evs := by
  constructor
  · rw [detRun_lookup]
    exact countSpecFrom_none P (detProcessed input)
  · intro dic l hsome hsched
    refine ⟨?_, (unexpected_mem_detStep dic P l).mpr ⟨hsched, hsome⟩⟩
    rw [detStep_lookup]
    simp [specStep, hsched, sched_not_creation hsched]

/-- Witness for C1: on a run with one creation for `P` followed by one
context switch to `P`, the invariant evaluates to registry entry 1; and a
step on a registry holding `P ↦ 2` increments it to 3 and prints
`UNEXPECTED`. -/
theorem detector_registry_invariant_witness :
    dicLookup (detRun [] [strL "SUMMARY: Spawn a a a a a a P",
        strL "CONTEXT_SWITCH: Scheduled: P"]).1 (strL "P") = some 1 ∧
    dicLookup (detStep [(strL "P", 2)]
        (strL "CONTEXT_SWITCH: Scheduled: P")).dic (strL "P") = some 3 ∧
    DEvent.unexpected (strL "P") ∈
      (detStep [(strL "P", 2)] (strL "CONTEXT_SWITCH: Scheduled: P")).evs := by
  have h := detector_registry_invariant
    [strL "SUMMARY: Spawn a a a a a a P", strL "CONTEXT_SWITCH: Scheduled: P"] (strL "P")
  have h2 := h.2 [(strL "P", 2)] (strL "CONTEXT_SWITCH: Scheduled: P")
    (by decide) (by decide)
  refine ⟨?_, ?_, h2.2⟩
  · rw [h.1]; decide
  · rw [h2.1]; decide

/-- Claim C2 (counterexample): in the spec's end-to-end scenario the creation
line `SUMMARY: Spawn x x x x x x x x P x x x x x,` has `P` at token index 10,
not 8, so the Detector records `x` (token 8) as the parent: the final
registry is `x ↦ 0` with no entry for `P` (in particular not `P ↦ 1`), no
`UNEXPECTED` is printed, and the switch to `P` is classified `NORMAL`. -/
theorem detector_e2e_counterexample :
    (detMain [strL "SUMMARY: Spawn x x x x x x x x P x x x x x,",
              strL "CONTEXT_SWITCH: Scheduled: P"]).1 = [(strL "x", 0)] ∧
    dicLookup (detMain [strL "SUMMARY: Spawn x x x x x x x x P x x x x x,",
        strL "CONTEXT_SWITCH: Scheduled: P"]).1 (strL "P") ≠ some 1 ∧
    DEvent.unexpected (strL "P") ∉
      (detMain [strL "SUMMARY: Spawn x x x x x x x x P x x x x x,",
                strL "CONTEXT_SWITCH: Scheduled: P"]).2 ∧
    DEvent.normal (strL "P") ∈
      (detMain [strL "SUMMARY: Spawn x x x x x x x x P x x x x x,",
                strL "CONTEXT_SWITCH: Scheduled: P"]).2 := by decide

/-- Claim C2 (amended): with the creation line shortened by two filler tokens
so that `P` is at token index 8 — `SUMMARY: Spawn x x x x x x P x x x x x,` —
followed by `CONTEXT_SWITCH: Scheduled: P`, the final registry maps `P` to 1
and an `UNEXPECTED` diagnostic is printed while processing the switch to
`P`. -/
theorem detector_e2e :
    (detMain [strL "SUMMARY: Spawn x x x x x x P x x x x x,",
              strL "CONTEXT_SWITCH: Scheduled: P"]).1 = [(strL "P", 1)] ∧
    dicLookup (detMain [strL "SUMMARY: Spawn x x x x x x P x x x x x,",
        strL "CONTEXT_SWITCH: Scheduled: P"]).1 (strL "P") = some 1 ∧
    DEvent.unexpected (strL "P") ∈
      (detMain [strL "SUMMARY: Spawn x x x x x x P x x x x x,",
                strL "CONTEXT_SWITCH: Scheduled: P"]).2 := by decide

/-- Claim C3 (counterexample): the scripts do not process every line of
arbitrarily malformed input.  A `CONTEXT_SWITCH:` line with no token at
index 2 raises IndexError inside the Detector's loop body; the swallow-all
outer handler turns this into a loop break, so the well-formed creation line
that follows is never processed: it is not echoed and its parent `P` never
enters the registry (which stays empty). -/
theorem detector_stops_on_malformed :
    DEvent.echo (strL "SUMMARY: Spawn a a a a a a P") ∉
      (detMain [strL "CONTEXT_SWITCH: x", strL "SUMMARY: Spawn a a a a a a P"]).2 ∧
    (detMain [strL "CONTEXT_SWITCH: x", strL "SUMMARY: Spawn a a a a a a P"]).1 = [] := by
  decide

/-- Claim C7 (counterexample to the claim as stated): in the input
`[creation-for-P, switch-to-P, creation-for-P]`, `P` "is reset by a
creation-summary line and then never appears again as a Scheduled target
before end of input" (witnessed by the final creation line), yet an
`UNEXPECTED` message was printed for `P` (during the switch between the two
resets), contradicting the claim's "no UNEXPECTED message is ever printed
for P". -/
theorem parent_never_rescheduled_counterexample :
    (∃ pre c post,
       ([strL "SUMMARY: Spawn a a a a a a P", strL "CONTEXT_SWITCH: Scheduled: P",
         strL "SUMMARY: Spawn a a a a a a P"] : List Str) = pre ++ c :: post ∧
       isCreationFor (strL "P") c = true ∧
       ∀ m ∈ post, isSchedFor (strL "P") m = false) ∧
    DEvent.unexpected (strL "P") ∈
      (detMain [strL "SUMMARY: Spawn a a a a a a P", strL "CONTEXT_SWITCH: Scheduled: P",
                strL "SUMMARY: Spawn a a a a a a P"]).2 := by
  refine ⟨⟨[strL "SUMMARY: Spawn a a a a a a P", strL "CONTEXT_SWITCH: Scheduled: P"],
    strL "SUMMARY: Spawn a a a a a a P", [], by decide, by decide, by decide⟩, by decide⟩

/-- Claim C7 (amended): for every input in which some processed line resets
`P` and no processed line schedules `P` after any reset of `P` (equivalently,
after the first one), `P`'s final registry count is 0 and no `UNEXPECTED`
message is ever printed for `P`. -/
theorem parent_never_rescheduled (input : List Str) (P : Str)
    (hreset : ∃ pre c post, detProcessed input = pre ++ c :: post ∧
      isCreationFor P c = true)
    (hnosched : ∀ pre c post, detProcessed input = pre ++ c :: post →
      isCreationFor P c = true → ∀ m ∈ post, isSchedFor P m = false) :
    dicLookup (detMain input).1 P = some 0 ∧
      DEvent.unexpected P ∉ (detMain input).2 := by
  constructor
  · show dicLookup (detRun [] input).1 P = some 0
    rw [detRun_lookup]
    show countSpecFrom none P (detProcessed input) = some 0
    have h := countSpecFrom_none P (detProcessed input)
    cases hs : sinceLastReset P (detProcessed input) with
    | none =>
      obtain ⟨pre, c, post, hdec, hc⟩ := hreset
      have hfalse := sinceLastReset_eq_none P _ hs c (by rw [hdec]; simp)
      rw [hc] at hfalse
      cases hfalse
    | some suf =>
      obtain ⟨pre, c, hdec, hc⟩ := sinceLastReset_decomp P _ _ hs
      have hall : ∀ m ∈ suf, isSchedFor P m = false := hnosched pre c suf hdec hc
      have hcount : suf.countP (fun m => isSchedFor P m) = 0 := by
        rw [List.countP_eq_zero]
        intro m hm
        simp [hall m hm]
      rw [h, hs]
      simp [hcount]
  · intro hmem
    have hmem' : DEvent.unexpected P ∈ (detRun [] input).2 := by
      simpa [detMain] using hmem
    obtain ⟨pre, l, post, hproc, hsch, hsome⟩ := detRun_unexpected_mem P input [] hmem'
    obtain ⟨pre1, c, post1, hdec, hc⟩ := exists_creation_of_isSome P pre hsome
    have hd2 : detProcessed input = pre1 ++ c :: (post1 ++ l :: post) := by
      rw [hproc, hdec]; simp
    have hfalse := hnosched pre1 c (post1 ++ l :: post) hd2 hc l (by simp)
    rw [hsch] at hfalse
    cases hfalse

/-- Witness for C7 (amended): a creation for `P` followed by a switch to a
different task `Q`: `P`'s final count is 0 and no `UNEXPECTED` is printed
for `P`. -/
theorem parent_never_rescheduled_witness :
    dicLookup (detMain [strL "SUMMARY: Spawn a a a a a a P",
        strL "CONTEXT_SWITCH: Scheduled: Q"]).1 (strL "P") = some 0 ∧
    DEvent.unexpected (strL "P") ∉
      (detMain [strL "SUMMARY: Spawn a a a a a a P",
          strL "CONTEXT_SWITCH: Scheduled: Q"]).2 := by
  apply parent_never_rescheduled
  · exact ⟨[], strL "SUMMARY: Spawn a a a a a a P",
      [strL "CONTEXT_SWITCH: Scheduled: Q"], by decide, by decide⟩
  · intro pre c post hdec hc m hm
    have hmem : m ∈ pre ++ c :: post :=
      List.mem_append_right _ (List.mem_cons_of_mem c hm)
    rw [← hdec] at hmem
    have hproc : detProcessed [strL "SUMMARY: Spawn a a a a a a P",
        strL "CONTEXT_SWITCH: Scheduled: Q"] =
        [strL "SUMMARY: Spawn a a a a a a P", strL "CONTEXT_SWITCH: Scheduled: Q"] := by
      decide
    rw [hproc] at hmem
    rcases List.mem_cons.mp hmem with rfl | hmem
    · decide
    · rcases List.mem_cons.mp hmem with rfl | hmem
      · decide
      · simp at hmem

/-- Claim C8: for every Detector input line whose first token is
`CONTEXT_SWITCH:` and that carries a task name at token index 2 (captured by
`isSchedFor P l`): if `P` is in the registry its counter is incremented by
one and the `UNEXPECTED` message is printed; if `P` is absent the `NORMAL`
message is printed; and in either case the iteration completes without
raising, so the loop goes on to process the remaining lines. -/
theorem context_switch_handling (dic : Dic) (l : Str) (ls : List Str) (P : Str)
    (hsch : isSchedFor P l = true) :
    ((dicLookup dic P).isSome = true →
        dicLookup (detStep dic l).dic P = (dicLookup dic P).map (· + 1) ∧
        DEvent.unexpected P ∈ (detStep dic l).evs) ∧
    (dicLookup dic P = none → DEvent.normal P ∈ (detStep dic l).evs) ∧
    (detStep dic l).ok = true ∧
    detRun dic (l :: ls) =
      ((detRun (detStep dic l).dic ls).1,
        (detStep dic l).evs ++ (detRun (detStep dic l).dic ls).2) := by
  have hok : (detStep dic l).ok = true := by
    rw [detStep_ok, sched_not_breaks hsch]
    rfl
  refine ⟨?_, ?_, hok, ?_⟩
  · intro hsome
    refine ⟨?_, (unexpected_mem_detStep dic P l).mpr ⟨hsch, hsome⟩⟩
    rw [detStep_lookup]
    simp [specStep, hsch, sched_not_creation hsch]
  · intro hnone
    exact (normal_mem_detStep dic P l).mpr ⟨hsch, hnone⟩
  · simp [detRun, hok]

/-- Witness for C8: a switch to `P` with `P ↦ 4` present increments to 5 and
prints `UNEXPECTED`; with an empty registry it prints `NORMAL`; both leave
the loop running. -/
theorem context_switch_handling_witness :
    dicLookup (detStep [(strL "P", 4)]
        (strL "CONTEXT_SWITCH: Scheduled: P")).dic (strL "P") = some 5 ∧
    DEvent.unexpected (strL "P") ∈
      (detStep [(strL "P", 4)] (strL "CONTEXT_SWITCH: Scheduled: P")).evs ∧
    DEvent.normal (strL "P") ∈
      (detStep [] (strL "CONTEXT_SWITCH: Scheduled: P")).evs ∧
    (detStep [] (strL "CONTEXT_SWITCH: Scheduled: P")).ok = true := by
  have h1 := context_switch_handling [(strL "P", 4)]
    (strL "CONTEXT_SWITCH: Scheduled: P") [] (strL "P") (by decide)
  have h2 := context_switch_handling []
    (strL "CONTEXT_SWITCH: Scheduled: P") [] (strL "P") (by decide)
  have ha := h1.1 (by decide)
  have hb := h2.2.1 (by decide)
  exact ⟨by rw [ha.1]; decide, ha.2, hb, h2.2.2.1⟩

/-- Claim C4 (counterexample): for a recognized case-summary line with third
token `1.):` (not the first recognized line), the Formatter does not emit
exactly the text `No new task added.` and nothing else: the `print("
SUMMARY: ", end="")` prefix lands on the same physical line, and a blank
line follows. -/
theorem no_new_task_counterexample :
    (fmtStep 1 (strL "<TaskSummaryLog> T-case 1.):")).outLines ≠
      [strL "No new task added."] ∧
    fmtStep 1 (strL "<TaskSummaryLog> T-case 1.):") =
      ⟨2, [strL "     SUMMARY: No new task added.", []], [], true⟩ := by decide

/-- Claim C4 (amended): for any recognized case-summary line (first token the
marker, second token `T-case`) whose third token is `1.):`, and that is not
the first recognized line, the Formatter emits exactly the line
`     SUMMARY: No new task added.` followed by one empty line, and nothing
else, and the loop keeps running. -/
theorem no_new_task_line (count : Nat) (l : Str) (rest : List Str)
    (hcnt : 1 ≤ count)
    (hsp : pySplit l = strL "<TaskSummaryLog>" :: strL "T-case" :: strL "1.):" :: rest) :
    fmtStep count l =
      ⟨count + 1, [strL "     SUMMARY: No new task added.", []], [], true⟩ := by
  have hne : ¬ (count + 1 = 1) := by omega
  have hfuse : strL "     SUMMARY: " ++ strL "No new task added." =
      strL "     SUMMARY: No new task added." := by decide
  simp [fmtStep, hsp, hne, hfuse]

/-- Witness for C4 (amended), at `count = 1` on a concrete line. -/
theorem no_new_task_line_witness :
    fmtStep 1 (strL "<TaskSummaryLog> T-case 1.): extra") =
      ⟨2, [strL "     SUMMARY: No new task added.", []], [], true⟩ :=
  no_new_task_line 1 _ [strL "extra"] (by decide) (by decide)

/-- Claim C6: a recognized line whose second token is `Scheduled:` and whose
third token is a task name `t2` makes the Formatter emit the single line
`CONTEXT_SWITCH: Scheduled: t2` (plus the trailing blank line every
recognized branch prints); and the first recognized line of the stream is
special-cased to emit the hardcoded `Scheduled: Task(0)` line (plus a blank
line) with no further parsing. -/
theorem scheduling_line_format (count : Nat) (l : Str) (rest : List Str) (t2 : Str)
    (hcnt : 1 ≤ count)
    (hsp : pySplit l = strL "<TaskSummaryLog>" :: strL "Scheduled:" :: t2 :: rest) :
    fmtStep count l =
      ⟨count + 1, [strL "CONTEXT_SWITCH: Scheduled: " ++ t2, []], [], true⟩ ∧
    ∀ l0, (pySplit l0)[0]? = some (strL "<TaskSummaryLog>") →
      fmtStep 0 l0 = ⟨1, [strL "Scheduled: Task(0)", []], [], true⟩ := by
  constructor
  · have hne : ¬ (count + 1 = 1) := by omega
    have hTcase : strL "Scheduled:" ≠ strL "T-case" := by decide
    have hfuse : ∀ t : Str, strL "CONTEXT_SWITCH: " ++ (strL "Scheduled: " ++ t) =
        strL "CONTEXT_SWITCH: Scheduled: " ++ t := fun t => rfl
    simp [fmtStep, hsp, hne, hTcase, hfuse]
  · intro l0 h0
    cases hsp0 : pySplit l0 with
    | nil => rw [hsp0] at h0; simp at h0
    | cons t0 r0 =>
      rw [hsp0] at h0
      simp only [List.getElem?_cons_zero, Option.some.injEq] at h0
      subst h0
      simp [fmtStep, hsp0]

/-- Witness for C6, at `count = 1` with task name `TaskB`, and the
first-line special case on the same line at `count = 0`. -/
theorem scheduling_line_format_witness :
    fmtStep 1 (strL "<TaskSummaryLog> Scheduled: TaskB") =
      ⟨2, [strL "CONTEXT_SWITCH: Scheduled: TaskB", []], [], true⟩ ∧
    fmtStep 0 (strL "<TaskSummaryLog> Scheduled: TaskB") =
      ⟨1, [strL "Scheduled: Task(0)", []], [], true⟩ := by
  have h := scheduling_line_format 1 (strL "<TaskSummaryLog> Scheduled: TaskB") []
    (strL "TaskB") (by decide) (by decide)
  exact ⟨by rw [h.1]; decide, h.2 _ (by decide)⟩

/-- Claim C9: for every finite input stream, whatever its content, the
Formatter's read loop has halted after at most `|input| + 1` clock ticks
from the initial state: end of input (or an in-body exception) ends the
loop, silently. -/
theorem formatter_terminates (input : List Str) :
    (fmtTick^[input.length + 1] (fmtInit input)).halted = true :=
  fmtTick_iterate_halts input.length (fmtInit input) (Nat.le_refl _)

/-- One iteration of the Formatter on a recognized creation line (second
token `T-case`, third token not `1.):`, type tag `Spawn` or `Continuation`
at token 3, child name / child id / parent name / parent id at tokens
5 / 8 / 11 / 14, the ids parsing after stripping one resp. two trailing
characters): emits the single creation line followed by a blank line. -/
theorem fmtStep_creation (count : Nat) (l : Str) (t2 tag child t8 parent t14 : Str)
    (rest : List Str) (cid pid : Int)
    (hcnt : 1 ≤ count)
    (hsp : pySplit l = strL "<TaskSummaryLog>" :: strL "T-case" :: t2 :: rest)
    (ht2 : t2 ≠ strL "1.):")
    (h3 : rest[0]? = some tag)
    (htag : tag = strL "Spawn" ∨ tag = strL "Continuation")
    (h5 : rest[2]? = some child)
    (h8 : rest[5]? = some t8)
    (h11 : rest[8]? = some parent)
    (h14 : rest[11]? = some t14)
    (hcid : pyInt t8.dropLast = some cid)
    (hpid : pyInt (dropLast2 t14) = some pid) :
    fmtStep count l =
      ⟨count + 1,
        [strL "     SUMMARY: " ++ (tag ++ (strL " " ++ (child ++ (strL " (ID = " ++
          (intRepr cid ++ (strL ")" ++ (strL " created by " ++ (parent ++
          (strL " (ID = " ++ (intRepr pid ++ strL ")")))))))))), []],
        [], true⟩ := by
  have hne : ¬ (count + 1 = 1) := by omega
  have hSC : strL "Continuation" ≠ strL "Spawn" := by decide
  rcases htag with rfl | rfl <;>
    simp [fmtStep, hsp, hne, ht2, h3, h5, h8, h11, h14, hcid, hpid, hSC]

/-- Claim C5 (counterexample): for a creation line carrying type `Spawn`,
child `TaskB` with id token `7,`, parent `TaskA` with id token `3))` at the
documented positions, the emitted physical line is not
`Spawn TaskB (ID = 7) created by TaskA (ID = 3)` — no output line equals it —
because the `     SUMMARY: ` prefix printed with `end=""` lands on the same
line. -/
theorem creation_line_counterexample :
    strL "Spawn TaskB (ID = 7) created by TaskA (ID = 3)" ∉
      (fmtStep 1
        (strL "<TaskSummaryLog> T-case 2.): Spawn x TaskB x x 7, x x TaskA x x 3))")).outLines ∧
    fmtStep 1
        (strL "<TaskSummaryLog> T-case 2.): Spawn x TaskB x x 7, x x TaskA x x 3))") =
      ⟨2, [strL "     SUMMARY: Spawn TaskB (ID = 7) created by TaskA (ID = 3)", []],
        [], true⟩ := by decide

/-- Claim C5 (amended): for any recognized creation-summary line (not the
first recognized line) with type tag `Spawn` or `Continuation` at token 3,
child name at token 5, child id at token 8, parent name at token 11 and
parent id at token 14, the ids parsed by stripping one (child) resp. two
(parent) trailing characters, the Formatter emits the physical line
`     SUMMARY: <Type> <ChildName> (ID = <ChildId>) created by <ParentName>
(ID = <ParentId>)` followed by one blank line. -/
theorem creation_line_format (count : Nat) (l : Str) (t2 tag child t8 parent t14 : Str)
    (rest : List Str) (cid pid : Int)
    (hcnt : 1 ≤ count)
    (hsp : pySplit l = strL "<TaskSummaryLog>" :: strL "T-case" :: t2 :: rest)
    (ht2 : t2 ≠ strL "1.):")
    (h3 : rest[0]? = some tag)
    (htag : tag = strL "Spawn" ∨ tag = strL "Continuation")
    (h5 : rest[2]? = some child)
    (h8 : rest[5]? = some t8)
    (h11 : rest[8]? = some parent)
    (h14 : rest[11]? = some t14)
    (hcid : pyInt t8.dropLast = some cid)
    (hpid : pyInt (dropLast2 t14) = some pid) :
    (fmtStep count l).outLines =
      [strL "     SUMMARY: " ++ (tag ++ (strL " " ++ (child ++ (strL " (ID = " ++
        (intRepr cid ++ (strL ")" ++ (strL " created by " ++ (parent ++
        (strL " (ID = " ++ (intRepr pid ++ strL ")")))))))))), []] ∧
    (fmtStep count l).ok = true := by
  rw [fmtStep_creation count l t2 tag child t8 parent t14 rest cid pid
    hcnt hsp ht2 h3 htag h5 h8 h11 h14 hcid hpid]
  exact ⟨rfl, rfl⟩

/-- Witness for C5 (amended): the scenario from the spec, with id tokens
`7,` and `3))`, evaluates to the line
`     SUMMARY: Spawn TaskB (ID = 7) created by TaskA (ID = 3)`. -/
theorem creation_line_format_witness :
    (fmtStep 1
      (strL "<TaskSummaryLog> T-case 3.): Spawn y TaskB y y 7, y y TaskA y y 3))")).outLines =
      [strL "     SUMMARY: Spawn TaskB (ID = 7) created by TaskA (ID = 3)", []] ∧
    (fmtStep 1
      (strL "<TaskSummaryLog> T-case 3.): Spawn y TaskB y y 7, y y TaskA y y 3))")).ok =
      true := by
  have h := creation_line_format 1
    (strL "<TaskSummaryLog> T-case 3.): Spawn y TaskB y y 7, y y TaskA y y 3))")
    (strL "3.):") (strL "Spawn") (strL "TaskB") (strL "7,") (strL "TaskA") (strL "3))")
    [strL "Spawn", strL "y", strL "TaskB", strL "y", strL "y", strL "7,", strL "y",
     strL "y", strL "TaskA", strL "y", strL "y", strL "3))"]
    7 3 (by decide) (by decide) (by decide) (by decide) (Or.inl rfl) (by decide)
    (by decide) (by decide) (by decide) (by decide) (by decide)
  refine ⟨?_, h.2⟩
  rw [h.1]
  decide

/-- Claim C3 (amended): unexpected token *content* in a recognized Formatter
line is reported via a printed generic error marker and does not stop the
loop: an unknown second-token category prints `error2`, an unknown type tag
prints `error1` (completing the pending `     SUMMARY: ` prefix into the
line `     SUMMARY: error1`, and then still printing the creation line with
the default lowercase `continuation` tag); in both cases the iteration
completes and the run goes on to process the remaining lines.  (Structurally
malformed lines — too few tokens at an accessed fixed position, or an
unparsable id — instead raise, and the swallow-all handler breaks the loop,
skipping all subsequent lines; see the counterexample.) -/
theorem formatter_error_markers_continue (count : Nat) (l : Str) (ls : List Str)
    (hcnt : 1 ≤ count) :
    (∀ t1 rest, pySplit l = strL "<TaskSummaryLog>" :: t1 :: rest →
      t1 ≠ strL "T-case" → t1 ≠ strL "Scheduled:" →
      fmtStep count l = ⟨count + 1, [strL "error2", []], [], true⟩ ∧
      fmtRun count (l :: ls) =
        (strL "error2" :: [] :: (fmtRun (count + 1) ls).1, (fmtRun (count + 1) ls).2)) ∧
    (∀ t2 rest t3 child t8 parent t14 cid pid,
      pySplit l = strL "<TaskSummaryLog>" :: strL "T-case" :: t2 :: rest →
      t2 ≠ strL "1.):" →
      rest[0]? = some t3 → t3 ≠ strL "Spawn" → t3 ≠ strL "Continuation" →
      rest[2]? = some child → rest[5]? = some t8 →
      rest[8]? = some parent → rest[11]? = some t14 →
      pyInt t8.dropLast = some cid → pyInt (dropLast2 t14) = some pid →
      fmtStep count l =
        ⟨count + 1,
          [strL "     SUMMARY: error1",
           strL "continuation" ++ (strL " " ++ (child ++ (strL " (ID = " ++
             (intRepr cid ++ (strL ")" ++ (strL " created by " ++ (parent ++
             (strL " (ID = " ++ (intRepr pid ++ strL ")"))))))))), []],
          [], true⟩ ∧
      fmtRun count (l :: ls) =
        ((fmtStep count l).outLines ++ (fmtRun (count + 1) ls).1,
          (fmtRun (count + 1) ls).2)) := by
  have hne : ¬ (count + 1 = 1) := by omega
  constructor
  · intro t1 rest hsp hA hB
    have hstep : fmtStep count l = ⟨count + 1, [strL "error2", []], [], true⟩ := by
      simp [fmtStep, hsp, hne, hA, hB]
    refine ⟨hstep, ?_⟩
    rw [fmtRun_cons, hstep]
    rfl
  · intro t2 rest t3 child t8 parent t14 cid pid hsp ht2 h3 h3S h3C h5 h8 h11 h14 hcid hpid
    have hfuse : strL "     SUMMARY: " ++ strL "error1" = strL "     SUMMARY: error1" := by
      decide
    have hstep : fmtStep count l =
        ⟨count + 1,
          [strL "     SUMMARY: error1",
           strL "continuation" ++ (strL " " ++ (child ++ (strL " (ID = " ++
             (intRepr cid ++ (strL ")" ++ (strL " created by " ++ (parent ++
             (strL " (ID = " ++ (intRepr pid ++ strL ")"))))))))), []],
          [], true⟩ := by
      simp [fmtStep, hsp, hne, ht2, h3, h3S, h3C, h5, h8, h11, h14, hcid, hpid, hfuse]
    refine ⟨hstep, ?_⟩
    rw [fmtRun_cons]
    rw [hstep]
    rfl

/-- Witness for C3 (amended): an `error2` line followed by a scheduling line
— the marker is printed and the next line is still processed; and an
`error1` creation line with bogus tag `Wat` prints the marker and the
lowercase-`continuation` creation line, then processes the following line. -/
theorem formatter_error_markers_continue_witness :
    fmtStep 3 (strL "<TaskSummaryLog> Bogus stuff") =
      ⟨4, [strL "error2", []], [], true⟩ ∧
    fmtRun 3 [strL "<TaskSummaryLog> Bogus stuff", strL "<TaskSummaryLog> Scheduled: T"] =
      ([strL "error2", [], strL "CONTEXT_SWITCH: Scheduled: T", []], []) ∧
    fmtStep 1 (strL "<TaskSummaryLog> T-case 2.): Wat y TaskB y y 7, y y TaskA y y 3))") =
      ⟨2, [strL "     SUMMARY: error1",
           strL "continuation TaskB (ID = 7) created by TaskA (ID = 3)", []], [], true⟩ := by
  have h1 := (formatter_error_markers_continue 3 (strL "<TaskSummaryLog> Bogus stuff")
    [strL "<TaskSummaryLog> Scheduled: T"] (by omega)).1
    (strL "Bogus") [strL "stuff"] (by decide) (by decide) (by decide)
  have h2 := (formatter_error_markers_continue 1
    (strL "<TaskSummaryLog> T-case 2.): Wat y TaskB y y 7, y y TaskA y y 3))")
    [] (by omega)).2
    (strL "2.):")
    [strL "Wat", strL "y", strL "TaskB", strL "y", strL "y", strL "7,", strL "y",
     strL "y", strL "TaskA", strL "y", strL "y", strL "3))"]
    (strL "Wat") (strL "TaskB") (strL "7,") (strL "TaskA") (strL "3))") 7 3
    (by decide) (by decide) (by decide) (by decide) (by decide) (by decide)
    (by decide) (by decide) (by decide) (by decide) (by decide)
  refine ⟨h1.1, ?_, ?_⟩
  · rw [h1.2]
    decide
  · rw [h2.1]
    decide

theorem mem_of_getElem_some {α : Type} :
    ∀ (l : List α) (i : Nat) (t : α), l[i]? = some t → t ∈ l := by
  intro l
  induction l with
  | nil => intro i t h; simp at h
  | cons a as ih =>
    intro i t h
    cases i with
    | zero =>
      simp only [List.getElem?_cons_zero, Option.some.injEq] at h
      simp [h]
    | succ j =>
      simp only [List.getElem?_cons_succ] at h
      exact List.mem_cons_of_mem a (ih j t h)

theorem pySplit_summary_marker (w : Str) :
    pySplit (strL "     SUMMARY: " ++ w) = strL "SUMMARY:" :: pySplitAux w [] := rfl

theorem pySplitAux_idAssign (w : Str) :
    pySplitAux (strL "(ID = " ++ w) [] = strL "(ID" :: strL "=" :: pySplitAux w [] := rfl

theorem pySplitAux_createdBy (w : Str) :
    pySplitAux (strL "created by " ++ w) [] =
      strL "created" :: strL "by" :: pySplitAux w [] := rfl

theorem sp_cons (w : Str) : strL " " ++ w = ' ' :: w := rfl

theorem sp_idEq_cons (w : Str) : strL " (ID = " ++ w = ' ' :: (strL "(ID = " ++ w) := rfl

/-- Whitespace-splitting the emitted creation line recovers exactly twelve
tokens, with `SUMMARY:` at index 0, the type tag at index 1 and the parent
name at index 8. -/
theorem pySplit_creation_line (tag child parent : Str) (cid pid : Int)
    (htW : noWs tag = true) (htN : tag ≠ [])
    (hcW : noWs child = true) (hcN : child ≠ [])
    (hpW : noWs parent = true) (hpN : parent ≠ []) :
    pySplit (strL "     SUMMARY: " ++ (tag ++ (strL " " ++ (child ++ (strL " (ID = " ++
      (intRepr cid ++ (strL ")" ++ (strL " created by " ++ (parent ++
      (strL " (ID = " ++ (intRepr pid ++ strL ")"))))))))))) =
    [strL "SUMMARY:", tag, child, strL "(ID", strL "=", intRepr cid ++ strL ")",
     strL "created", strL "by", parent, strL "(ID", strL "=",
     intRepr pid ++ strL ")"] := by
  have hsp : isWs ' ' = true := rfl
  have hcidW : noWs (intRepr cid ++ strL ")") = true :=
    noWs_append (intRepr_noWs cid) (by decide)
  have hcidN : (intRepr cid ++ strL ")") ≠ [] := by
    intro h
    exact absurd (List.append_eq_nil.mp h).2 (by decide)
  have hpidW : noWs (intRepr pid ++ strL ")") = true :=
    noWs_append (intRepr_noWs pid) (by decide)
  have hpidN : (intRepr pid ++ strL ")") ≠ [] := by
    intro h
    exact absurd (List.append_eq_nil.mp h).2 (by decide)
  rw [pySplit_summary_marker, sp_cons, pySplit_tok_then tag htW htN ' ' hsp,
    sp_idEq_cons, pySplit_tok_then child hcW hcN ' ' hsp, pySplitAux_idAssign]
  rw [show intRepr cid ++ (strL ")" ++ (strL " created by " ++ (parent ++
        (strL " (ID = " ++ (intRepr pid ++ strL ")"))))) =
      (intRepr cid ++ strL ")") ++ (' ' :: (strL "created by " ++ (parent ++
        (strL " (ID = " ++ (intRepr pid ++ strL ")"))))) from by
    rw [← List.append_assoc]
    rfl]
  rw [pySplit_tok_then (intRepr cid ++ strL ")") hcidW hcidN ' ' hsp,
    pySplitAux_createdBy, sp_idEq_cons, pySplit_tok_then parent hpW hpN ' ' hsp,
    pySplitAux_idAssign, pySplit_tok_end (intRepr pid ++ strL ")") hpidW hpidN]

/-- Claim C10: every creation line the Formatter emits (on a recognized
creation-summary line with a `Spawn`/`Continuation` tag and the documented
fixed token positions) has the form `     SUMMARY: <Type> <ChildName>
(ID = <ChildId>) created by <ParentName> (ID = <ParentId>)`, whose
whitespace-split tokenization places `SUMMARY:` at index 0, the type tag at
index 1 and the parent name at index 8; hence when this line is piped into
the Detector, the Detector's creation branch (token index 8) recovers
exactly the parent name the Formatter embedded — the line is a creation
line for that parent in the Detector's sense. -/
theorem formatter_detector_composition (count : Nat) (l : Str)
    (t2 tag child t8 parent t14 : Str) (rest : List Str) (cid pid : Int)
    (hcnt : 1 ≤ count)
    (hsp : pySplit l = strL "<TaskSummaryLog>" :: strL "T-case" :: t2 :: rest)
    (ht2 : t2 ≠ strL "1.):")
    (h3 : rest[0]? = some tag)
    (htag : tag = strL "Spawn" ∨ tag = strL "Continuation")
    (h5 : rest[2]? = some child)
    (h8 : rest[5]? = some t8)
    (h11 : rest[8]? = some parent)
    (h14 : rest[11]? = some t14)
    (hcid : pyInt t8.dropLast = some cid)
    (hpid : pyInt (dropLast2 t14) = some pid) :
    ∀ E, (fmtStep count l).outLines = [E, []] →
      pySplit E =
        [strL "SUMMARY:", tag, child, strL "(ID", strL "=", intRepr cid ++ strL ")",
         strL "created", strL "by", parent, strL "(ID", strL "=",
         intRepr pid ++ strL ")"] ∧
      (pySplit E)[0]? = some (strL "SUMMARY:") ∧
      (pySplit E)[1]? = some tag ∧
      (pySplit E)[8]? = some parent ∧
      isCreationFor parent E = true := by
  have hchild : noWs child = true ∧ child ≠ [] := by
    refine noWs_of_mem_pySplit (s := l) ?_
    rw [hsp]
    have hm : child ∈ rest := mem_of_getElem_some rest 2 child h5
    simp [hm]
  have hparent : noWs parent = true ∧ parent ≠ [] := by
    refine noWs_of_mem_pySplit (s := l) ?_
    rw [hsp]
    have hm : parent ∈ rest := mem_of_getElem_some rest 8 parent h11
    simp [hm]
  have htW : noWs tag = true := by rcases htag with rfl | rfl <;> decide
  have htN : tag ≠ [] := by rcases htag with rfl | rfl <;> decide
  intro E hE
  have hstep := fmtStep_creation count l t2 tag child t8 parent t14 rest cid pid
    hcnt hsp ht2 h3 htag h5 h8 h11 h14 hcid hpid
  rw [hstep] at hE
  simp only [List.cons.injEq, and_true] at hE
  subst hE
  have hps := pySplit_creation_line tag child parent cid pid htW htN
    hchild.1 hchild.2 hparent.1 hparent.2
  refine ⟨hps, ?_, ?_, ?_, ?_⟩
  · rw [hps]; rfl
  · rw [hps]; rfl
  · rw [hps]; rfl
  · rcases htag with rfl | rfl <;> simp [isCreationFor, hps]

/-- Witness for C10: the concrete creation line from the C5 scenario:
splitting the emitted `     SUMMARY: Spawn TaskB (ID = 7) created by TaskA
(ID = 3)` yields `SUMMARY:` at index 0, `Spawn` at index 1, `TaskA` at
index 8, and the Detector classifies it as a creation line for `TaskA`. -/
theorem formatter_detector_composition_witness :
    pySplit (strL "     SUMMARY: Spawn TaskB (ID = 7) created by TaskA (ID = 3)") =
      [strL "SUMMARY:", strL "Spawn", strL "TaskB", strL "(ID", strL "=", strL "7)",
       strL "created", strL "by", strL "TaskA", strL "(ID", strL "=", strL "3)"] ∧
    isCreationFor (strL "TaskA")
      (strL "     SUMMARY: Spawn TaskB (ID = 7) created by TaskA (ID = 3)") = true := by
  have h := formatter_detector_composition 1
    (strL "<TaskSummaryLog> T-case 3.): Spawn y TaskB y y 7, y y TaskA y y 3))")
    (strL "3.):") (strL "Spawn") (strL "TaskB") (strL "7,") (strL "TaskA") (strL "3))")
    [strL "Spawn", strL "y", strL "TaskB", strL "y", strL "y", strL "7,", strL "y",
     strL "y", strL "TaskA", strL "y", strL "y", strL "3))"]
    7 3 (by decide) (by decide) (by decide) (by decide) (Or.inl rfl) (by decide)
    (by decide) (by decide) (by decide) (by decide) (by decide)
    (strL "     SUMMARY: Spawn TaskB (ID = 7) created by TaskA (ID = 3)")
    (by decide)
  refine ⟨?_, ?_⟩
  · rw [h.1]; decide
  · exact h.2.2.2.2
